import Mathlib

/-!
Verification of the econolab dashboard (`src/main.py`): a Flask app that
discovers CSV files, builds three kinds of Plotly charts (time series,
parametric scatter, multi-file comparison), and serves them.

Shallow embedding: a loaded CSV is a `Table` (header plus rows of cells);
file loading is modelled by `Except` (an `error` value stands for a Python
exception raised by `pd.read_csv` or anything else inside the `try`) and the
filesystem seen by the comparison endpoint by `FS : String → FileOutcome`.
Chart construction is modelled down to the data that the claims are about:
the long-format entries produced by `df.melt`, the per-series traces with
their legend visibility, and the comparison traces with their colors.
-/

/-- A CSV cell value. The claims only depend on equality of cell values,
so cells are modelled as integers. -/
abbrev Value := Int

/-- A loaded CSV file: `pd.read_csv` yields a header (`columns`) and a list
of rows; every row has one cell per column. -/
structure Table where
  columns : List String
  rows : List (List Value)
deriving DecidableEq, Repr

/-- `COLUMNS_TO_IGNORE` from `main.py` line 12 (note `X_cycle_time` is
listed twice in the source). -/
def COLUMNS_TO_IGNORE : List String :=
  ["X_center", "X_cycle_time", "X_continuous_level", "X_cycle_time",
   "X_n_steps", "X_phase", "X_step_duration", "X_step_index",
   "X_step_progress", "X_triangle", "X_within_step"]

/-- `visible_by_default` from `main.py` lines 61-62. -/
def visible_by_default : List String :=
  ["profit_share", "utilization_rate", "consumption_rate",
   "investment_rate", "H_stock"]

/-- Cell lookup by column name: `df[col]` for a single row. Pandas locates
the first column with that name; absent columns never occur on the paths
the code takes (it checks membership first). -/
def cell (df : Table) (r : List Value) (c : String) : Value :=
  match df.columns.findIdx? (· == c) with
  | some i => r.getD i 0
  | none => 0

/-- The `time` column of the table, row by row (`df['time']`). -/
def timesOf (df : Table) : List Value :=
  df.rows.map (fun r => cell df r "time")

/-- One row of the long-format frame produced by `df.melt`:
`(time, variable, value)`. -/
structure TSEntry where
  time : Value
  varName : String
  value : Value
deriving DecidableEq, Repr

/-- The identifying key the spec talks about: (time value, series name). -/
def entryKey (e : TSEntry) : Value × String := (e.time, e.varName)

/-- `main.py` lines 35-36: the plotted columns are all columns except
`time` and the ignore list. -/
def value_vars (df : Table) : List String :=
  df.columns.filter (fun col => col != "time" && !(COLUMNS_TO_IGNORE.contains col))

/-- `df.melt(id_vars=['time'], value_vars=value_vars, var_name='variable',
value_name='value')` (line 44): for each value column in order, one entry
per row of the table. -/
def melt (df : Table) (vv : List String) : List TSEntry :=
  vv.flatMap (fun v => df.rows.map (fun r => ⟨cell df r "time", v, cell df r v⟩))

/-- Plotly trace visibility: `visible=True` or `visible='legendonly'`
(present in data and legend, not drawn until toggled). -/
inductive Visibility where
  | shown
  | legendonly
deriving DecidableEq, Repr

/-- One line trace of the time-series figure (one per distinct series). -/
structure TSTrace where
  name : String
  visible : Visibility
deriving DecidableEq, Repr

def firstDedupGo : List String → List String → List String
  | [], _ => []
  | x :: xs, seen => if x ∈ seen then firstDedupGo xs seen else x :: firstDedupGo xs (x :: seen)

/-- First-occurrence deduplication: the order in which `px.line` creates
one trace per distinct value of the `variable` column. -/
def firstDedup (l : List String) : List String := firstDedupGo l []

/-- `px.line(df_long, ..., color='variable')` (line 48): one trace per
distinct series name, in order of first appearance, initially visible;
no trace if the long frame is empty. -/
def px_line_traces (df : Table) (vv : List String) : List TSTrace :=
  if df.rows.isEmpty then []
  else (firstDedup vv).map (fun v => ⟨v, Visibility.shown⟩)

/-- `main.py` lines 64-66: every trace whose name is not in
`visible_by_default` is switched to legend-only. -/
def apply_default_visibility (ts : List TSTrace) : List TSTrace :=
  ts.map (fun t => if t.name ∈ visible_by_default then t
                   else { t with visible := Visibility.legendonly })

/-- The time-series chart as far as the claims observe it: the long-format
data and the traces with their visibility. -/
structure TimeSeriesChart where
  entries : List TSEntry
  traces : List TSTrace
deriving DecidableEq, Repr

/-- `create_time_series_plot` (lines 21-73). The argument is the outcome of
`pd.read_csv`: `Except.error` stands for any exception raised inside the
`try`, which the `except` clause turns into `None`. -/
def create_time_series_plot (load : Except String Table) : Option TimeSeriesChart :=
  match load with
  | .error _ => none
  | .ok df =>
    if "time" ∉ df.columns then none
    else
      let vv := value_vars df
      if vv = [] then none
      else some ⟨melt df vv, apply_default_visibility (px_line_traces df vv)⟩

/-- The parametric chart: the scatter points plus the dotted connector
line through the points in row order (`main.py` lines 89-96); the legend
is suppressed (line 102). -/
structure ParametricChart where
  points : List (Value × Value)
  trendLine : List (Value × Value)
  showlegend : Bool
deriving DecidableEq, Repr

/-- `create_parametric_plot` (lines 75-110). -/
def create_parametric_plot (load : Except String Table) : Option ParametricChart :=
  match load with
  | .error _ => none
  | .ok df =>
    if "profit_share" ∉ df.columns ∨ "utilization_rate" ∉ df.columns then none
    else
      let pts := df.rows.map (fun r => (cell df r "profit_share", cell df r "utilization_rate"))
      some ⟨pts, pts, false⟩

/-- What the filesystem yields for a filename when the comparison loop
handles it: the file is absent (`os.path.exists` is false), reading it
raises (malformed CSV, vanished file, ...), or it loads as a table. -/
inductive FileOutcome where
  | missing
  | readError (msg : String)
  | table (t : Table)

/-- The filesystem as seen through `os.path.exists` + `pd.read_csv`. -/
def FS := String → FileOutcome

/-- Turn a filesystem outcome into the `pd.read_csv` result used by the
per-file transforms (a missing file makes `read_csv` raise). -/
def loadOf : FileOutcome → Except String Table
  | .missing => .error "FileNotFoundError"
  | .readError m => .error m
  | .table t => .ok t

/-- The color palette of `create_comparison_plot` (`main.py` line 121). -/
def colors : List String :=
  ["#1f77b4", "#ff7f0e", "#2ca02c", "#d62728", "#9467bd"]

/-- One `go.Scatter` trace of the comparison figure (lines 144-151). -/
structure CompTrace where
  name : String
  color : String
  xs : List Value
  ys : List Value
deriving DecidableEq, Repr

/-- A file is valid for comparison if it exists, loads, and has both
required columns (lines 129-139). -/
def isValid (fs : FS) (f : String) : Bool :=
  match fs f with
  | .table df => df.columns.contains "profit_share" && df.columns.contains "utilization_rate"
  | _ => false

/-- A file whose `pd.read_csv` raises inside the comparison loop. -/
def raisesOnLoad (fs : FS) (f : String) : Bool :=
  match fs f with
  | .readError _ => true
  | _ => false

/-- The trace built for a valid file at position `i` of the selection:
colored by `colors[i % len(colors)]` (lines 141-151). -/
def compTraceOf (df : Table) (f : String) (i : Nat) : CompTrace :=
  ⟨f, (colors.getD (i % colors.length) ""),
   df.rows.map (fun r => cell df r "profit_share"),
   df.rows.map (fun r => cell df r "utilization_rate")⟩

/-- The `for i, filename in enumerate(selected_files)` loop of
`create_comparison_plot` (lines 126-153): a missing file or one without the
required columns is skipped (`continue`); an exception while reading escapes
the loop to the `except` clause, which returns `None` for the whole call. -/
def comparisonLoop (fs : FS) : List String → Nat → List CompTrace → Option (List CompTrace)
  | [], _, acc => some acc
  | f :: rest, i, acc =>
    match fs f with
    | .missing => comparisonLoop fs rest (i + 1) acc
    | .readError _ => none
    | .table df =>
      if df.columns.contains "profit_share" && df.columns.contains "utilization_rate" then
        comparisonLoop fs rest (i + 1) (acc ++ [compTraceOf df f i])
      else
        comparisonLoop fs rest (i + 1) acc

/-- `create_comparison_plot` (lines 112-172): runs the loop; if it raised,
the `except` yields `None`; if zero valid traces were added (line 157) the
result is `None`; otherwise the figure (observed as its trace list). -/
def create_comparison_plot (fs : FS) (selected_files : List String) : Option (List CompTrace) :=
  match comparisonLoop fs selected_files 0 [] with
  | none => none
  | some traces => if traces.length = 0 then none else some traces

/-- The `/compare` endpoint response: HTTP status plus the serialized chart
when one was built (`plot_html` in the JSON body). -/
structure CompareResponse where
  status : Nat
  plot : Option (List CompTrace)
deriving DecidableEq, Repr

/-- `compare_files` (lines 205-219): reject selections of fewer than 2
files with a 400, otherwise build the comparison plot and answer 200 with
it, or 400 if none could be built. -/
def compare_files (fs : FS) (selected_files : List String) : CompareResponse :=
  if selected_files.length < 2 then ⟨400, none⟩
  else
    match create_comparison_plot fs selected_files with
    | some plot => ⟨200, some plot⟩
    | none => ⟨400, none⟩

/-- The per-file body of the dashboard loop: both plots for one file. -/
def tsPlotOf (fs : FS) (f : String) : Option TimeSeriesChart :=
  create_time_series_plot (loadOf (fs f))

def pPlotOf (fs : FS) (f : String) : Option ParametricChart :=
  create_parametric_plot (loadOf (fs f))

/-- Python's `str.endswith`, modelled over the character list so that it
evaluates inside proofs. -/
def strEndsWith (s suffix : String) : Bool :=
  suffix.toList.isSuffixOf s.toList

/-- The `for filename in os.listdir(CSV_FOLDER)` loop of `index`
(lines 183-194): for each `.csv` file build both plots and, when at least
one succeeded, append the (possibly `None`) plots and the filename to the
three parallel lists. -/
def processFiles (fs : FS) : List String →
    List (Option TimeSeriesChart) × List (Option ParametricChart) × List String
  | [] => ([], [], [])
  | f :: rest =>
    if strEndsWith f ".csv" then
      let t := tsPlotOf fs f
      let p := pPlotOf fs f
      let (ts, ps, ns) := processFiles fs rest
      if t.isSome || p.isSome then (t :: ts, p :: ps, f :: ns) else (ts, ps, ns)
    else processFiles fs rest

/-- What the dashboard template receives (lines 198-203). -/
structure DashboardView where
  time_series_plots : List (Option TimeSeriesChart)
  parametric_plots : List (Option ParametricChart)
  filenames : List String
  plot_count : Nat

/-- The `index` route (lines 174-203) over a directory listing. -/
def index (fs : FS) (listing : List String) : DashboardView :=
  let r := processFiles fs listing
  ⟨r.1, r.2.1, r.2.2, r.2.2.length⟩

/-- Extract the long-format entries of an optional time-series chart. -/
def entriesOf : Option TimeSeriesChart → List TSEntry
  | some ch => ch.entries
  | none => []

lemma melt_length (df : Table) (vv : List String) :
    (melt df vv).length = df.rows.length * vv.length := by
  induction vv with
  | nil => simp [melt]
  | cons v vv ih =>
    simp only [melt, List.flatMap_cons, List.length_append, List.length_map,
      List.length_cons] at ih ⊢
    rw [Nat.mul_succ]
    omega

lemma melt_keys (df : Table) (vv : List String) :
    (melt df vv).map entryKey =
      vv.flatMap (fun v => (timesOf df).map (fun t => (t, v))) := by
  simp only [melt, timesOf, List.map_flatMap, List.map_map]
  rfl

lemma keyPairs_nodup (ts : List Value) :
    ∀ vv : List String, vv.Nodup → ts.Nodup →
      (vv.flatMap (fun v => ts.map (fun t => ((t, v) : Value × String)))).Nodup
  | [], _, _ => by simp
  | v :: vv, hvv, hts => by
    simp only [List.flatMap_cons]
    refine List.Nodup.append ?_ (keyPairs_nodup ts vv (List.nodup_cons.mp hvv).2 hts) ?_
    · exact hts.map (fun a b hab => by simpa using hab)
    · intro x hx hx2
      simp only [List.mem_map] at hx
      simp only [List.mem_flatMap, List.mem_map] at hx2
      obtain ⟨t, _, rfl⟩ := hx
      obtain ⟨v2, hv2, t2, _, heq⟩ := hx2
      have hv : v = v2 := by
        have := congrArg Prod.snd heq
        simpa using this.symm
      exact (List.nodup_cons.mp hvv).1 (hv ▸ hv2)

lemma create_ts_of_conditions (df : Table)
    (htime : "time" ∈ df.columns) (hvv : value_vars df ≠ []) :
    create_time_series_plot (Except.ok df) =
      some ⟨melt df (value_vars df),
            apply_default_visibility (px_line_traces df (value_vars df))⟩ := by
  simp [create_time_series_plot, htime, hvv]

lemma create_ts_some (df : Table) (ch : TimeSeriesChart)
    (h : create_time_series_plot (Except.ok df) = some ch) :
    ch.entries = melt df (value_vars df) ∧
    ch.traces = apply_default_visibility (px_line_traces df (value_vars df)) ∧
    "time" ∈ df.columns ∧ value_vars df ≠ [] := by
  have h1 : "time" ∈ df.columns := by
    by_contra h1
    simp [create_time_series_plot, h1] at h
  have h2 : value_vars df ≠ [] := by
    intro h2
    simp [create_time_series_plot, h2] at h
  rw [create_ts_of_conditions df h1 h2] at h
  obtain rfl := Option.some_inj.mp h
  exact ⟨rfl, rfl, h1, h2⟩

lemma mem_firstDedupGo : ∀ (l seen : List String) (x : String), x ∈ firstDedupGo l seen → x ∈ l := by
  intro l
  induction l with
  | nil => intro seen x h; simp [firstDedupGo] at h
  | cons a l ih =>
    intro seen x h
    simp only [firstDedupGo] at h
    by_cases hc : a ∈ seen
    · rw [if_pos hc] at h
      exact List.mem_cons_of_mem a (ih _ x h)
    · rw [if_neg hc] at h
      rcases List.mem_cons.mp h with rfl | h
      · exact List.mem_cons_self _ _
      · exact List.mem_cons_of_mem _ (ih _ x h)

lemma mem_value_vars (df : Table) (x : String) (h : x ∈ value_vars df) :
    x ∉ COLUMNS_TO_IGNORE ∧ x ≠ "time" ∧ x ∈ df.columns := by
  simp only [value_vars, List.mem_filter, Bool.and_eq_true, bne_iff_ne, ne_eq] at h
  have hig := h.2.2
  simp only [Bool.not_eq_true] at hig
  refine ⟨by simpa using hig, h.2.1, h.1⟩

lemma melt_varName_mem (df : Table) (vv : List String) (e : TSEntry)
    (h : e ∈ melt df vv) : e.varName ∈ vv := by
  simp only [melt, List.mem_flatMap, List.mem_map] at h
  obtain ⟨v, hv, r, _, rfl⟩ := h
  exact hv

lemma mem_apply_default_visibility (ts : List TSTrace) (t : TSTrace)
    (h : t ∈ apply_default_visibility ts) :
    ∃ t2 ∈ ts, t = if t2.name ∈ visible_by_default then t2
                   else { t2 with visible := Visibility.legendonly } := by
  simp only [apply_default_visibility, List.mem_map] at h
  obtain ⟨t2, ht2, rfl⟩ := h
  exact ⟨t2, ht2, rfl⟩

lemma mem_px_line_traces (df : Table) (vv : List String) (t : TSTrace)
    (h : t ∈ px_line_traces df vv) : t.name ∈ vv ∧ t.visible = Visibility.shown := by
  cases he : df.rows.isEmpty with
  | true => simp [px_line_traces, he] at h
  | false =>
    simp only [px_line_traces, he, Bool.false_eq_true, if_false, List.mem_map] at h
    obtain ⟨v, hv, rfl⟩ := h
    exact ⟨mem_firstDedupGo vv [] v hv, rfl⟩

/-- Witness table: two rows with distinct time values and one plotted column. -/
def wTable : Table := ⟨["time", "a"], [[0, 5], [1, 6]]⟩

/-- The chart built from `wTable`. -/
def wChart : TimeSeriesChart :=
  ⟨melt wTable (value_vars wTable),
   apply_default_visibility (px_line_traces wTable (value_vars wTable))⟩

/-- Counterexample table for the key-uniqueness part of the reshape claim:
two rows share the time value `0`. -/
def cexTable : Table := ⟨["time", "a"], [[0, 1], [0, 2]]⟩

/-- C1 (counterexample): `cexTable` has a `time` column and one plottable
column, and the reshape does produce rows x plotted-columns entries, but the
entries are NOT uniquely identified by (time value, series name): the two
rows share time value 0, so both entries carry the key (0, "a"). -/
theorem ts_reshape_key_collision :
    "time" ∈ cexTable.columns ∧
    (value_vars cexTable).length = 1 ∧
    (entriesOf (create_time_series_plot (Except.ok cexTable))).length =
      cexTable.rows.length * (value_vars cexTable).length ∧
    decide (((entriesOf (create_time_series_plot (Except.ok cexTable))).map entryKey).Nodup)
      = false := by
  decide

/-- C1 (amended): for a table with a `time` column, at least one plottable
column, distinct column names, and pairwise-distinct time values, the
reshape yields exactly rows x plotted-columns entries and each entry is
uniquely identified by its (time value, series name) key. -/
theorem ts_reshape_count_and_keys (df : Table)
    (htime : "time" ∈ df.columns) (hvv : value_vars df ≠ [])
    (hcols : df.columns.Nodup) (htimes : (timesOf df).Nodup) :
    (create_time_series_plot (Except.ok df)).isSome = true ∧
    (entriesOf (create_time_series_plot (Except.ok df))).length =
      df.rows.length * (value_vars df).length ∧
    ((entriesOf (create_time_series_plot (Except.ok df))).map entryKey).Nodup := by
  rw [create_ts_of_conditions df htime hvv]
  refine ⟨rfl, ?_, ?_⟩
  · simpa [entriesOf] using melt_length df (value_vars df)
  · have hvvnd : (value_vars df).Nodup := hcols.filter _
    simp only [entriesOf]
    rw [melt_keys]
    exact keyPairs_nodup (timesOf df) (value_vars df) hvvnd htimes

theorem ts_reshape_count_and_keys_witness :
    (create_time_series_plot (Except.ok wTable)).isSome = true ∧
    (entriesOf (create_time_series_plot (Except.ok wTable))).length =
      wTable.rows.length * (value_vars wTable).length ∧
    ((entriesOf (create_time_series_plot (Except.ok wTable))).map entryKey).Nodup :=
  ts_reshape_count_and_keys wTable (by decide) (by decide) (by decide) (by decide)

/-- C6: for every table, no ignored column name ever appears in the
time-series chart, neither as the series name of a long-format entry nor as
the name of a trace. -/
theorem excluded_columns_never_plotted (df : Table) (ch : TimeSeriesChart)
    (h : create_time_series_plot (Except.ok df) = some ch) :
    (∀ e ∈ ch.entries, e.varName ∉ COLUMNS_TO_IGNORE) ∧
    (∀ t ∈ ch.traces, t.name ∉ COLUMNS_TO_IGNORE) := by
  obtain ⟨he, ht, -, -⟩ := create_ts_some df ch h
  constructor
  · intro e hmem
    rw [he] at hmem
    exact (mem_value_vars df _ (melt_varName_mem df _ e hmem)).1
  · intro t hmem
    rw [ht] at hmem
    obtain ⟨t2, ht2, rfl⟩ := mem_apply_default_visibility _ t hmem
    have hn := (mem_px_line_traces df _ t2 ht2).1
    have hname : (if t2.name ∈ visible_by_default then t2
                  else { t2 with visible := Visibility.legendonly }).name = t2.name := by
      split_ifs <;> rfl
    rw [hname]
    exact (mem_value_vars df _ hn).1

theorem excluded_columns_never_plotted_witness :
    (∀ e ∈ wChart.entries, e.varName ∉ COLUMNS_TO_IGNORE) ∧
    (∀ t ∈ wChart.traces, t.name ∉ COLUMNS_TO_IGNORE) :=
  excluded_columns_never_plotted wTable wChart (by decide)

/-- C7: a table without a `time` column yields no time-series result (the
embedding is total, so no exception can escape). -/
theorem missing_time_column_yields_none (df : Table) (h : "time" ∉ df.columns) :
    create_time_series_plot (Except.ok df) = none := by
  simp [create_time_series_plot, h]

theorem missing_time_column_yields_none_witness :
    create_time_series_plot (Except.ok ⟨["a"], [[1]]⟩) = none :=
  missing_time_column_yields_none ⟨["a"], [[1]]⟩ (by decide)

/-- C9: in every produced time-series chart, a trace whose name is in the
visible-by-default allow-list starts visible, and every other trace starts
legend-only. -/
theorem default_visibility_rule (df : Table) (ch : TimeSeriesChart)
    (h : create_time_series_plot (Except.ok df) = some ch) :
    ∀ t ∈ ch.traces,
      (t.name ∈ visible_by_default → t.visible = Visibility.shown) ∧
      (t.name ∉ visible_by_default → t.visible = Visibility.legendonly) := by
  obtain ⟨-, ht, -, -⟩ := create_ts_some df ch h
  intro t hmem
  rw [ht] at hmem
  obtain ⟨t2, ht2, rfl⟩ := mem_apply_default_visibility _ t hmem
  have hvis := (mem_px_line_traces df _ t2 ht2).2
  by_cases hn : t2.name ∈ visible_by_default
  · rw [if_pos hn]
    exact ⟨fun _ => hvis, fun hc => absurd hn hc⟩
  · rw [if_neg hn]
    exact ⟨fun hc => absurd hc hn, fun _ => rfl⟩

theorem default_visibility_rule_witness :
    (⟨"a", Visibility.legendonly⟩ : TSTrace).visible = Visibility.legendonly :=
  (default_visibility_rule wTable wChart (by decide)
    ⟨"a", Visibility.legendonly⟩ (by decide)).2 (by decide)

/-- The traces the comparison loop accumulates when no file raises while
being read: one per valid file, in order, indexed by selection position. -/
def validTraces (fs : FS) : List String → Nat → List CompTrace
  | [], _ => []
  | f :: rest, i =>
    match fs f with
    | .table df =>
      if df.columns.contains "profit_share" && df.columns.contains "utilization_rate" then
        compTraceOf df f i :: validTraces fs rest (i + 1)
      else validTraces fs rest (i + 1)
    | _ => validTraces fs rest (i + 1)

lemma comparisonLoop_raises (fs : FS) :
    ∀ (sel : List String) (i : Nat) (acc : List CompTrace),
      (∃ f ∈ sel, raisesOnLoad fs f = true) → comparisonLoop fs sel i acc = none := by
  intro sel
  induction sel with
  | nil => intro i acc h; simp at h
  | cons f rest ih =>
    intro i acc h
    obtain ⟨g, hg, hr⟩ := h
    rcases List.mem_cons.mp hg with rfl | hg2
    · simp only [raisesOnLoad] at hr
      cases hfs : fs g with
      | missing => rw [hfs] at hr; simp at hr
      | readError m => simp [comparisonLoop, hfs]
      | table t => rw [hfs] at hr; simp at hr
    · cases hfs : fs f with
      | missing => simpa [comparisonLoop, hfs] using ih (i + 1) acc ⟨g, hg2, hr⟩
      | readError m => simp [comparisonLoop, hfs]
      | table t =>
        simp only [comparisonLoop, hfs]
        split_ifs <;> exact ih (i + 1) _ ⟨g, hg2, hr⟩

lemma comparisonLoop_no_raise (fs : FS) :
    ∀ (sel : List String) (i : Nat) (acc : List CompTrace),
      (∀ f ∈ sel, raisesOnLoad fs f = false) →
      comparisonLoop fs sel i acc = some (acc ++ validTraces fs sel i) := by
  intro sel
  induction sel with
  | nil => intro i acc _; simp [comparisonLoop, validTraces]
  | cons f rest ih =>
    intro i acc h
    have hrest : ∀ g ∈ rest, raisesOnLoad fs g = false :=
      fun g hg => h g (List.mem_cons_of_mem f hg)
    have hf := h f (List.mem_cons_self _ _)
    cases hfs : fs f with
    | missing => simp [comparisonLoop, validTraces, hfs, ih (i + 1) acc hrest]
    | readError m => rw [raisesOnLoad, hfs] at hf; simp at hf
    | table t =>
      simp only [comparisonLoop, validTraces, hfs]
      split_ifs with hcond
      · rw [ih (i + 1) (acc ++ [compTraceOf t f i]) hrest]
        simp
      · exact ih (i + 1) acc hrest

lemma validTraces_length (fs : FS) :
    ∀ (sel : List String) (i : Nat),
      (validTraces fs sel i).length = (sel.filter (isValid fs)).length := by
  intro sel
  induction sel with
  | nil => intro i; simp [validTraces]
  | cons f rest ih =>
    intro i
    cases hfs : fs f with
    | missing => simp [validTraces, List.filter_cons, isValid, hfs, ih (i + 1)]
    | readError m => simp [validTraces, List.filter_cons, isValid, hfs, ih (i + 1)]
    | table t =>
      simp only [validTraces, List.filter_cons, isValid, hfs]
      split_ifs with hcond
      · simp [hcond, ih (i + 1)]
      · simp [hcond, ih (i + 1)]

lemma validTraces_colors (fs : FS) :
    ∀ (sel : List String) (start : Nat),
      (∀ f ∈ sel, isValid fs f = true) →
      (validTraces fs sel start).map (fun t => t.color) =
        (List.range sel.length).map (fun k => colors.getD ((start + k) % colors.length) "") := by
  intro sel
  induction sel with
  | nil => intro start _; simp [validTraces]
  | cons f rest ih =>
    intro start h
    have hf := h f (List.mem_cons_self _ _)
    simp only [isValid] at hf
    cases hfs : fs f with
    | missing => rw [hfs] at hf; simp at hf
    | readError m => rw [hfs] at hf; simp at hf
    | table t =>
      rw [hfs] at hf
      simp only [validTraces, hfs, if_pos hf, List.map_cons]
      rw [List.length_cons, List.range_succ_eq_map, List.map_cons, List.map_map]
      refine congrArg₂ _ ?_ ?_
      · simp [compTraceOf]
      · rw [ih (start + 1) (fun g hg => h g (List.mem_cons_of_mem f hg))]
        refine List.map_congr_left (fun k _ => ?_)
        simp only [Function.comp, Nat.succ_eq_add_one]
        congr 2
        omega

lemma get_map_color (l : List CompTrace) (g : Nat → String)
    (h : l.map (fun t => t.color) = (List.range l.length).map g) :
    ∀ i (hi : i < l.length), (l.get ⟨i, hi⟩).color = g i := by
  intro i hi
  have h2 := congrArg (fun l2 : List String => l2[i]?) h
  simp only [List.getElem?_map] at h2
  rw [List.getElem?_eq_getElem hi,
      List.getElem?_eq_getElem (by simpa : i < (List.range l.length).length)] at h2
  simp only [List.getElem_range, Option.map_some'] at h2
  simpa [List.get_eq_getElem] using h2

lemma colors_getD_inj (i j : Nat) (hi : i < colors.length) (hj : j < colors.length)
    (hne : i ≠ j) : colors.getD i "" ≠ colors.getD j "" := by
  have hnodup : colors.Nodup := by decide
  intro hc
  have hg : colors.get ⟨i, hi⟩ = colors.get ⟨j, hj⟩ := by
    simpa [List.getD_eq_getElem?_getD, List.getElem?_eq_getElem, hi, hj] using hc
  exact hne (congrArg Fin.val (hnodup.get_inj_iff.mp hg))

/-- A table with exactly the two columns the comparison needs. -/
def okTable : Table := ⟨["profit_share", "utilization_rate"], [[1, 2]]⟩

/-- A small filesystem: two loadable valid files, one file whose read
raises, everything else missing. -/
def cexFS : FS := fun f =>
  if f = "a.csv" then .table okTable
  else if f = "b.csv" then .readError "ParserError"
  else if f = "c.csv" then .table okTable
  else .missing

/-- C2 (counterexample): in the comparison transform a read exception on
`b.csv` is NOT contained to that file: the whole batch yields no result,
although `c.csv` later in the batch is perfectly valid. -/
theorem comparison_batch_aborts_on_read_error :
    isValid cexFS "c.csv" = true ∧
    raisesOnLoad cexFS "b.csv" = true ∧
    create_comparison_plot cexFS ["a.csv", "b.csv", "c.csv"] = none := by
  decide

/-- C2 (amended): for the time-series and parametric transforms any
load/transform exception is caught and converted to a per-file no-result
(and a raising file is simply skipped by the dashboard batch, leaving the
remaining files untouched); for the comparison transform, a file whose
read raises makes the whole comparison yield no result — the exception is
still never propagated, but the rest of that batch is discarded. -/
theorem exception_handling_per_transform (e : String) (fs : FS) (sel : List String)
    (f g : String) (rest : List String)
    (hf : f ∈ sel) (hr : raisesOnLoad fs f = true)
    (hg : raisesOnLoad fs g = true) :
    create_time_series_plot (Except.error e) = none ∧
    create_parametric_plot (Except.error e) = none ∧
    processFiles fs (g :: rest) = processFiles fs rest ∧
    create_comparison_plot fs sel = none := by
  refine ⟨rfl, rfl, ?_, ?_⟩
  · simp only [raisesOnLoad] at hg
    cases hgs : fs g with
    | missing => rw [hgs] at hg; simp at hg
    | table t => rw [hgs] at hg; simp at hg
    | readError m =>
      by_cases hcsv : strEndsWith g ".csv" = true
      · simp [processFiles, hcsv, tsPlotOf, pPlotOf, loadOf, hgs,
              create_time_series_plot, create_parametric_plot]
      · simp [processFiles, hcsv]
  · simp only [create_comparison_plot, comparisonLoop_raises fs sel 0 [] ⟨f, hf, hr⟩]

theorem exception_handling_per_transform_witness :
    create_time_series_plot (Except.error "boom") = none ∧
    create_parametric_plot (Except.error "boom") = none ∧
    processFiles cexFS ("b.csv" :: ["a.csv"]) = processFiles cexFS ["a.csv"] ∧
    create_comparison_plot cexFS ["a.csv", "b.csv", "c.csv"] = none :=
  exception_handling_per_transform "boom" cexFS ["a.csv", "b.csv", "c.csv"]
    "b.csv" "b.csv" ["a.csv"] (by decide) (by decide) (by decide)

/-- C3: a `/compare` request over at least 2 selected files of which exactly
one is valid (the rest missing on disk or lacking the required columns, so
nothing raises while reading) succeeds with HTTP 200 and a chart holding
exactly one trace. -/
theorem compare_single_valid_trace_succeeds (fs : FS) (sel : List String)
    (h2 : 2 ≤ sel.length)
    (hnr : ∀ f ∈ sel, raisesOnLoad fs f = false)
    (hv : (sel.filter (isValid fs)).length = 1) :
    (compare_files fs sel).status = 200 ∧
    (compare_files fs sel).plot.isSome = true ∧
    ((compare_files fs sel).plot.getD []).length = 1 := by
  have hloop := comparisonLoop_no_raise fs sel 0 [] hnr
  have hlen : (validTraces fs sel 0).length = 1 := by
    rw [validTraces_length]; exact hv
  have hplot : create_comparison_plot fs sel = some (validTraces fs sel 0) := by
    simp only [create_comparison_plot, hloop, List.nil_append]
    rw [if_neg (by omega)]
  simp only [compare_files]
  rw [if_neg (by omega), hplot]
  simp [hlen]

theorem compare_single_valid_trace_succeeds_witness :
    (compare_files cexFS ["a.csv", "missing.csv"]).status = 200 ∧
    (compare_files cexFS ["a.csv", "missing.csv"]).plot.isSome = true ∧
    ((compare_files cexFS ["a.csv", "missing.csv"]).plot.getD []).length = 1 :=
  compare_single_valid_trace_succeeds cexFS ["a.csv", "missing.csv"]
    (by decide) (by decide) (by decide)

/-- C4: a `/compare` request with fewer than 2 selected files is answered
400 with no chart, and the answer does not depend on the filesystem at all
(no file is looked up or read). -/
theorem short_selection_rejected_before_io (fs : FS) (sel : List String)
    (h : sel.length < 2) :
    compare_files fs sel = ⟨400, none⟩ ∧
    ∀ fs2 : FS, compare_files fs sel = compare_files fs2 sel := by
  constructor
  · simp [compare_files, h]
  · intro fs2; simp [compare_files, h]

theorem short_selection_rejected_before_io_witness :
    compare_files cexFS ["a.csv"] = ⟨400, none⟩ :=
  (short_selection_rejected_before_io cexFS ["a.csv"] (by decide)).1

/-- The traces of the comparison chart, empty when none was produced. -/
def comparisonTraces (fs : FS) (sel : List String) : List CompTrace :=
  (create_comparison_plot fs sel).getD []

/-- C5: in a comparison over a selection of valid files, each trace is
colored by its position in the selection order (`colors[i % len(colors)]`);
while the selection fits in the 5-color palette all traces get distinct
colors, and beyond the palette the colors repeat with period 5. -/
theorem comparison_color_assignment (fs : FS) (sel : List String)
    (hval : ∀ f ∈ sel, isValid fs f = true) (h2 : 2 ≤ sel.length) :
    (create_comparison_plot fs sel).isSome = true ∧
    (comparisonTraces fs sel).length = sel.length ∧
    (∀ i (hi : i < (comparisonTraces fs sel).length),
      ((comparisonTraces fs sel).get ⟨i, hi⟩).color = colors.getD (i % colors.length) "") ∧
    (sel.length ≤ colors.length →
      ∀ i j (hi : i < (comparisonTraces fs sel).length)
        (hj : j < (comparisonTraces fs sel).length), i ≠ j →
        ((comparisonTraces fs sel).get ⟨i, hi⟩).color ≠
          ((comparisonTraces fs sel).get ⟨j, hj⟩).color) ∧
    (∀ i (hi : i + colors.length < (comparisonTraces fs sel).length),
      ((comparisonTraces fs sel).get ⟨i + colors.length, hi⟩).color =
        ((comparisonTraces fs sel).get ⟨i, by omega⟩).color) := by
  have hnr : ∀ f ∈ sel, raisesOnLoad fs f = false := by
    intro f hf
    have hv := hval f hf
    simp only [isValid] at hv
    cases hfs : fs f with
    | missing => simp [raisesOnLoad, hfs]
    | readError m => rw [hfs] at hv; simp at hv
    | table t => simp [raisesOnLoad, hfs]
  have hloop := comparisonLoop_no_raise fs sel 0 [] hnr
  have hfil : sel.filter (isValid fs) = sel := List.filter_eq_self.mpr hval
  have hlen : (validTraces fs sel 0).length = sel.length := by
    rw [validTraces_length, hfil]
  have hplot : create_comparison_plot fs sel = some (validTraces fs sel 0) := by
    simp only [create_comparison_plot, hloop, List.nil_append]
    rw [if_neg (by omega)]
  have htr : comparisonTraces fs sel = validTraces fs sel 0 := by
    simp [comparisonTraces, hplot]
  have htlen : (comparisonTraces fs sel).length = sel.length := by rw [htr, hlen]
  have hcolors : (comparisonTraces fs sel).map (fun t => t.color) =
      (List.range (comparisonTraces fs sel).length).map
        (fun k => colors.getD (k % colors.length) "") := by
    rw [htr, hlen, validTraces_colors fs sel 0 hval]
    refine List.map_congr_left (fun k _ => ?_)
    rw [Nat.zero_add]
  have hcol := get_map_color (comparisonTraces fs sel) _ hcolors
  refine ⟨by simp [hplot], htlen, hcol, ?_, ?_⟩
  · intro hfit i j hi hj hne
    rw [hcol i hi, hcol j hj]
    exact colors_getD_inj _ _
      (by rw [Nat.mod_eq_of_lt (by omega)]; omega)
      (by rw [Nat.mod_eq_of_lt (by omega)]; omega)
      (by rw [Nat.mod_eq_of_lt (by omega), Nat.mod_eq_of_lt (by omega)]; exact hne)
  · intro i hi
    rw [hcol _ hi, hcol i (by omega)]
    rw [Nat.add_mod_right]

theorem comparison_color_assignment_witness :
    (create_comparison_plot cexFS ["a.csv", "c.csv"]).isSome = true :=
  (comparison_color_assignment cexFS ["a.csv", "c.csv"] (by decide) (by decide)).1

lemma processFiles_lengths (fs : FS) :
    ∀ listing : List String,
      (processFiles fs listing).1.length = (processFiles fs listing).2.2.length ∧
      (processFiles fs listing).2.1.length = (processFiles fs listing).2.2.length := by
  intro listing
  induction listing with
  | nil => simp [processFiles]
  | cons f rest ih =>
    by_cases hcsv : strEndsWith f ".csv" = true
    · simp only [processFiles, hcsv, if_true]
      by_cases hsome : ((tsPlotOf fs f).isSome || (pPlotOf fs f).isSome) = true
      · simp only [hsome, if_true]
        simpa using ih
      · simp only [Bool.not_eq_true] at hsome
        simp only [hsome, Bool.false_eq_true, if_false]
        exact ih
    · simp only [processFiles, hcsv, Bool.false_eq_true, if_false]
      exact ih

/-- C10: the dashboard builds three parallel lists of equal length and
reports their common length as the processed-file count; a `.csv` file for
which exactly one of the two plot types succeeds still contributes one
entry to each list, the failed plot type contributing a `none`
placeholder. -/
theorem dashboard_parallel_lists (fs : FS) (listing : List String)
    (f : String) (rest : List String)
    (hcsv : strEndsWith f ".csv" = true)
    (hxor : (tsPlotOf fs f).isSome = !(pPlotOf fs f).isSome) :
    (index fs listing).time_series_plots.length = (index fs listing).filenames.length ∧
    (index fs listing).parametric_plots.length = (index fs listing).filenames.length ∧
    (index fs listing).plot_count = (index fs listing).filenames.length ∧
    processFiles fs (f :: rest) =
      (tsPlotOf fs f :: (processFiles fs rest).1,
       pPlotOf fs f :: (processFiles fs rest).2.1,
       f :: (processFiles fs rest).2.2) ∧
    (tsPlotOf fs f = none ∨ pPlotOf fs f = none) := by
  have hlens := processFiles_lengths fs listing
  refine ⟨hlens.1, hlens.2, rfl, ?_, ?_⟩
  · have hsome : ((tsPlotOf fs f).isSome || (pPlotOf fs f).isSome) = true := by
      cases hp : (pPlotOf fs f).isSome with
      | true => simp [hp]
      | false => rw [hp] at hxor; simp [hxor]
    simp only [processFiles, hcsv, if_true, hsome]
  · cases hp : (pPlotOf fs f).isSome with
    | true =>
      rw [hp] at hxor
      simp only [Bool.not_true] at hxor
      exact Or.inl (Option.not_isSome_iff_eq_none.mp (by simp [hxor]))
    | false =>
      exact Or.inr (Option.not_isSome_iff_eq_none.mp (by simp [hp]))

theorem dashboard_parallel_lists_witness :
    (index cexFS ["a.csv"]).time_series_plots.length =
      (index cexFS ["a.csv"]).filenames.length ∧
    (index cexFS ["a.csv"]).parametric_plots.length =
      (index cexFS ["a.csv"]).filenames.length ∧
    (index cexFS ["a.csv"]).plot_count = (index cexFS ["a.csv"]).filenames.length ∧
    processFiles cexFS ("a.csv" :: []) =
      (tsPlotOf cexFS "a.csv" :: (processFiles cexFS []).1,
       pPlotOf cexFS "a.csv" :: (processFiles cexFS []).2.1,
       "a.csv" :: (processFiles cexFS []).2.2) ∧
    (tsPlotOf cexFS "a.csv" = none ∨ pPlotOf cexFS "a.csv" = none) :=
  dashboard_parallel_lists cexFS ["a.csv"] "a.csv" [] (by decide) (by decide)

/-- C8: a table missing `profit_share` or `utilization_rate` (or both)
yields no parametric result. -/
theorem missing_parametric_columns_yields_none (df : Table)
    (h : "profit_share" ∉ df.columns ∨ "utilization_rate" ∉ df.columns) :
    create_parametric_plot (Except.ok df) = none := by
  simp only [create_parametric_plot]
  rw [if_pos h]

theorem missing_parametric_columns_yields_none_witness :
    create_parametric_plot (Except.ok ⟨["time"], [[1]]⟩) = none :=
  missing_parametric_columns_yields_none ⟨["time"], [[1]]⟩ (by decide)
